import Mathlib

/-!
Verification development for the browser-network/network core
(`src/index.ts` first revision, `src/MessageMemory.ts`, the `RudeList`
component, and the configuration constructor).

The TypeScript source is embedded shallowly:

* JS objects used as string-keyed maps (`_connections`, `_seenMessageIds`,
  `rudeIps`) become association lists with JS insertion-order update
  semantics (`upsert`): an existing key keeps its position, a new key is
  appended.  JS truthiness tests on looked-up values (`!!obj[k]`,
  `if (obj[k])`) are embedded by `truthyNum` / `truthyStr`.
* `Date.now()` and `uuid()` are oracles: each operation takes the current
  time and the fresh identifiers it consumes as explicit arguments.
* Side effects that leave the Network state (events emitted via the
  typed event emitter, `peer.send`, `console.log`) are collected in an
  output list of `NetEvent`s.  `peer.signal`, the repeater scheduling and
  HTTP I/O have no effect on the embedded state and produce no event.
* Exceptions (`exhaustive()` throwing on an unknown network message type)
  are modelled by a Boolean "threw" component; state changes made before
  the throw persist, as in JS.
-/

namespace BrowserNetwork

/-- JS truthiness of a possibly-absent numeric field (`!!x` / `if (x)`):
undefined and `0` are falsy. -/
def truthyNum (o : Option Nat) : Bool := (o.getD 0) != 0

/-- JS truthiness of a possibly-absent string field: undefined and the
empty string are falsy. -/
def truthyStr (o : Option String) : Bool := !((o.getD "") == "")

/-- Lookup in a JS object modelled as an association list. -/
def assocLookup {α : Type} : List (String × α) → String → Option α
  | [], _ => none
  | p :: rest, k => if p.1 = k then some p.2 else assocLookup rest k

/-- JS object update `obj[k] = v`: an existing key keeps its position and
gets the new value, a new key is appended at the end. -/
def upsert {α : Type} : List (String × α) → String → α → List (String × α)
  | [], k, v => [(k, v)]
  | p :: rest, k, v => if p.1 = k then (k, v) :: rest else p :: upsert rest k v

/-- Negotiations on the wire are offers or answers (`types.d.ts`). -/
inductive NegType where
  | offer
  | answer
deriving DecidableEq, Repr

/-- The negotiation wire record of `types.d.ts` (`NegotiationCommon`).
`sdp` is `null` while the negotiation is pending. -/
structure Negotiation where
  type : NegType
  clientId : String
  connectionId : String
  sdp : Option String
  networkId : String
  timestamp : Nat
deriving DecidableEq, Repr

/-- The runtime payload of a message's `data` field (`any` in TS).  The
network's own control messages carry a negotiation or a log record; the
remaining constructors stand for application payloads. -/
inductive MessageData where
  | negotiation (n : Negotiation)
  | log (contents : String)
  | str (s : String)
  | emptyObj
deriving DecidableEq, Repr

/-- The wire message of `Message.d.ts` for the embedded revision: `id`,
`clientId`, `appId`, `ttl`, `type`, `destination`, `data`.  `appId` and
`type` are `Option` so that a runtime value missing those fields (the
`broadcast` contract-violation case) can be represented. -/
structure Message where
  id : String
  clientId : String
  appId : Option String
  type : Option String
  ttl : Nat
  destination : String
  data : MessageData
deriving DecidableEq, Repr

/-- A `Connection` as held in `_connections` (`Connection.d.ts` plus the
`Connection` class): the peer handle is abstracted to the fields the
Network reads (`peer.connected`, `peer.destroyed`, `peer.channelName`). -/
structure Connection where
  id : String
  clientId : Option String
  negotiation : Negotiation
  peerConnected : Bool
  peerDestroyed : Bool
  channelName : Option String
deriving DecidableEq, Repr

/-- `NetworkConfig.d.ts` of the embedded revision. -/
structure NetworkConfig where
  offerBroadcastInterval : Nat
  switchboardRequestInterval : Nat
  garbageCollectInterval : Nat
  respectSwitchboardVolunteerMessages : Bool
  maxMessageRateBeforeRude : Nat
  maxConnections : Nat
deriving DecidableEq, Repr

/-- The observable outputs of one operation: emitter events
(`add-connection`, `destroy-connection`, `broadcast-message`, `message`,
`switchboard-response`), a datagram handed to `peer.send`, and
`console.log` output. -/
inductive NetEvent where
  | addConnection (c : Connection)
  | destroyConnection (id : String)
  | broadcastMessage (m : Message)
  | message (appId : Option String) (m : Message)
  | switchboardResponse (book : List Negotiation)
  | sent (connectionId : String) (m : Message)
  | consoleLog (clientId : String) (contents : String)
deriving DecidableEq, Repr

/-- The mutable fields of the `Network` class that the embedded
operations read or write. -/
structure NetworkState where
  clientId : String
  networkId : String
  config : NetworkConfig
  connections : List Connection
  seenMessageIds : List (String × Nat)
  rudeIps : List (String × Nat)
deriving DecidableEq, Repr

/-- The message payload carried by an output, if any (used to state what
was physically sent or announced). -/
def eventMessage : NetEvent → Option Message
  | .broadcastMessage m => some m
  | .sent _ m => some m
  | _ => none

/-- Number of `message` emitter events for a given message id. -/
def msgEventCount (i : String) (evs : List NetEvent) : Nat :=
  evs.countP fun e =>
    match e with
    | .message _ m => m.id == i
    | _ => false

/-! ### `util.ts`: `getIpFromRTCSDP`

The source matches the global regex `(?:(?:[0-9]{1,3}\.){3}[0-9]{1,3})`
against the SDP string and returns the first match, or `null` when there
is none.  Because a digit group followed by `.` can only match the whole
maximal digit run at its position (backtracking to a shorter prefix
always leaves a digit, not a dot, as the next character), the regex is
equivalent to the deterministic matcher below. -/

/-- Length of the leading run of ASCII digits. -/
def digitRunLen : List Char → Nat
  | [] => 0
  | c :: rest => if c.isDigit then digitRunLen rest + 1 else 0

/-- Match `[0-9]{1,3}\.` at the head; return the consumed characters and
the remainder. -/
def matchGroupDot (cs : List Char) : Option (List Char × List Char) :=
  let r := digitRunLen cs
  if 1 ≤ r ∧ r ≤ 3 then
    match cs.drop r with
    | '.' :: rest => some (cs.take r ++ ['.'], rest)
    | _ => none
  else none

/-- Match the final `[0-9]{1,3}` (greedy) at the head. -/
def matchLastGroup (cs : List Char) : Option (List Char) :=
  let r := digitRunLen cs
  if 1 ≤ r then some (cs.take (min r 3)) else none

/-- Match the whole IPv4-shaped pattern at the head of the list. -/
def matchIpAt (cs : List Char) : Option (List Char) :=
  (matchGroupDot cs).bind fun p1 =>
  (matchGroupDot p1.2).bind fun p2 =>
  (matchGroupDot p2.2).bind fun p3 =>
  (matchLastGroup p3.2).map fun g4 => p1.1 ++ p2.1 ++ p3.1 ++ g4

/-- First match of the pattern anywhere in the list, scanning left to
right (what `String.prototype.match[0]` returns). -/
def firstIpMatch : List Char → Option String
  | [] => none
  | c :: rest =>
    match matchIpAt (c :: rest) with
    | some m => some (String.mk m)
    | none => firstIpMatch rest

/-- `util.ts` `getIpFromRTCSDP`: the first IPv4-shaped substring of the
SDP, or `null`. -/
def getIpFromRTCSDP (sdp : String) : Option String :=
  firstIpMatch sdp.data

/-- JS object indexing coerces a `null` key to the string `"null"`
(`this.rudeIps[getIpFromRTCSDP(sdp)]` when no IP was found). -/
def keyOfNullable : Option String → String
  | none => "null"
  | some s => s

/-! ### `MessageMemory.ts` -/

/-- `MessageMemory`: message id → insertion timestamp, plus the retention
period handed to the constructor. -/
structure MessageMemory where
  memoryDuration : Nat
  mem : List (String × Nat)
deriving DecidableEq, Repr

namespace MessageMemory

/-- `add`: mark this message as having been seen (`mem[id] = Date.now()`). -/
def add (mm : MessageMemory) (now : Nat) (messageId : String) : MessageMemory :=
  { mm with mem := upsert mm.mem messageId now }

/-- `hasSeen`: `!!this.mem[messageId]`. -/
def hasSeen (mm : MessageMemory) (messageId : String) : Bool :=
  truthyNum (assocLookup mm.mem messageId)

/-- `garbageCollect`: delete every entry with
`Date.now() - date > this.memoryDuration`. -/
def garbageCollect (mm : MessageMemory) (now : Nat) : MessageMemory :=
  { mm with
    mem := mm.mem.filter fun p =>
      !(decide ((now : Int) - (p.2 : Int) > (mm.memoryDuration : Int))) }

end MessageMemory

/-! ### `RudeList` (src/unnamed/part_013) -/

/-- `RudeList`: per-address receive timestamps and the configured
maximum message rate. -/
structure RudeList where
  maxMessageRate : Nat
  events : List (String × List Nat)
deriving DecidableEq, Repr

namespace RudeList

/-- `registerMessage`: append `Date.now()` to the sender address's
timestamp vector, creating the vector on first use. -/
def registerMessage (rl : RudeList) (now : Nat) (address : String) : RudeList :=
  match assocLookup rl.events address with
  | none => { rl with events := upsert rl.events address [now] }
  | some ts => { rl with events := upsert rl.events address (ts ++ [now]) }

/-- `isRude`: filter the address's timestamps with `t < now` and compare
the count against the maximum rate.  (Note the filter keeps every
timestamp lying in the past; nothing is evicted by age, and the stored
vector is not written back.) -/
def isRude (rl : RudeList) (now : Nat) (address : String) : Bool :=
  let timestamps := (assocLookup rl.events address).getD []
  let filtered := timestamps.filter fun t => t < now
  filtered.length > rl.maxMessageRate

end RudeList

/-! ### The constructor's configuration merge

`constructor(...)` runs
`this.config = Object.assign(config, { ...defaults })`: the target is the
caller's record and the source is the defaults object, which carries
every field, so each field of the result is the source's. -/

/-- The caller's `config` argument: every field optional. -/
structure ConfigInput where
  offerBroadcastInterval : Option Nat := none
  switchboardRequestInterval : Option Nat := none
  garbageCollectInterval : Option Nat := none
  respectSwitchboardVolunteerMessages : Option Bool := none
  maxMessageRateBeforeRude : Option Nat := none
  maxConnections : Option Nat := none
deriving DecidableEq, Repr

/-- `Object.assign(target, source)` over the configuration fields: a
field present on the source overwrites the target's. -/
def objectAssignConfig (target source : ConfigInput) : ConfigInput :=
  { offerBroadcastInterval :=
      source.offerBroadcastInterval <|> target.offerBroadcastInterval
    switchboardRequestInterval :=
      source.switchboardRequestInterval <|> target.switchboardRequestInterval
    garbageCollectInterval :=
      source.garbageCollectInterval <|> target.garbageCollectInterval
    respectSwitchboardVolunteerMessages :=
      source.respectSwitchboardVolunteerMessages <|> target.respectSwitchboardVolunteerMessages
    maxMessageRateBeforeRude :=
      source.maxMessageRateBeforeRude <|> target.maxMessageRateBeforeRude
    maxConnections :=
      source.maxConnections <|> target.maxConnections }

/-- The defaults literal of the constructor, every field present. -/
def configDefaults : ConfigInput :=
  { offerBroadcastInterval := some (1000 * 5)
    switchboardRequestInterval := some (1000 * 3)
    garbageCollectInterval := some (1000 * 5)
    respectSwitchboardVolunteerMessages := some true
    maxMessageRateBeforeRude := some 100
    maxConnections := some 10 }

/-- `this.config = Object.assign(config, { ...defaults })`. -/
def constructorConfig (config : ConfigInput) : ConfigInput :=
  objectAssignConfig config configDefaults

/-! ### `Network` (src/index.ts, first revision) -/

namespace Network

/-- `MEMORY_DURATION = 1000 * 60`. -/
def MEMORY_DURATION : Nat := 1000 * 60

/-- `isRude(ip)`: `!!this.rudeIps[ip]`, the looked-up value being a
timestamp. -/
def isRude (st : NetworkState) (ip : String) : Bool :=
  truthyNum (assocLookup st.rudeIps ip)

/-- `this.isRude(getIpFromRTCSDP(sdp))` as used on offers and answers. -/
def isRudeOfSdp (st : NetworkState) (sdp : Option String) : Bool :=
  isRude st (keyOfNullable (getIpFromRTCSDP (sdp.getD "")))

/-- `getConnectionByClientId`: `connections().find(con => con.clientId === clientId)`. -/
def getConnectionByClientId (st : NetworkState) (clientId : String) : Option Connection :=
  st.connections.find? fun con => con.clientId == some clientId

/-- `hasConnection`: `!!this.getConnectionByClientId(clientId)`. -/
def hasConnection (st : NetworkState) (clientId : String) : Bool :=
  (getConnectionByClientId st clientId).isSome

/-- `send(connection, message)`: returns without sending unless
`connection.peer.connected`; otherwise `peer.send(JSON.stringify(message))`
(a throw from `peer.send` is caught and ignored). -/
def send (connection : Connection) (message : Message) : List NetEvent :=
  if connection.peerConnected then [.sent connection.id message] else []

/-- The `for (const connection of this.connections())` loop of
`broadcastMessage`.  Written `return`, not `continue`: a connection whose
`negotiation.sdp` is falsy makes the whole method return, discarding the
remaining connections and the final `broadcast-message` emit.  The Boolean
records whether the loop ran to completion. -/
def sendLoop : List Connection → Message → List NetEvent × Bool
  | [], _ => ([], true)
  | c :: rest, m =>
    if (c.negotiation.sdp.getD "") == "" then ([], false)
    else
      let r := sendLoop rest m
      (send c m ++ r.1, r.2)

/-- `broadcastMessage`: record the id in `_seenMessageIds`, then the send
loop, then (when the loop was not cut short) emit `broadcast-message`. -/
def broadcastMessage (st : NetworkState) (now : Nat) (message : Message) :
    NetworkState × List NetEvent :=
  let st1 := { st with seenMessageIds := upsert st.seenMessageIds message.id now }
  let r := sendLoop st.connections message
  (st1, r.1 ++ if r.2 then [.broadcastMessage message] else [])

/-- `rebroadcast`: return when `!message.ttl`; otherwise
`message.ttl -= 1` (mutating the shared message object) and
`broadcastMessage`.  The third component is the message object after the
in-place mutation, which the caller (`handleMessage`) goes on to emit. -/
def rebroadcast (st : NetworkState) (now : Nat) (message : Message) :
    NetworkState × List NetEvent × Message :=
  if message.ttl = 0 then (st, [], message)
  else
    let m2 := { message with ttl := message.ttl - 1 }
    let r := broadcastMessage st now m2
    (r.1, r.2, m2)

/-- The caller-supplied argument of the public `broadcast`: the TS type
requires `type`, `data` and `appId`, but nothing is checked at runtime,
so every field is modelled as optional. -/
structure BroadcastInput where
  type : Option String := none
  appId : Option String := none
  data : MessageData := .emptyObj
  id : Option String := none
  clientId : Option String := none
  ttl : Option Nat := none
  destination : Option String := none
deriving DecidableEq, Repr

/-- The public `broadcast`: stamps `id = uuid()`, `clientId = this.clientId`
and then `Object.assign(message, { ttl: 6, destination: '*' })`,
overwriting whatever the caller supplied for those four fields, and hands
the result to `broadcastMessage`.  No field is validated
(`// TODO require: data, appId, type`). -/
def broadcast (st : NetworkState) (now : Nat) (freshId : String)
    (input : BroadcastInput) : NetworkState × List NetEvent :=
  let toBroadcast : Message :=
    { id := freshId
      clientId := st.clientId
      appId := input.appId
      type := input.type
      ttl := 6
      destination := "*"
      data := input.data }
  broadcastMessage st now toBroadcast

/-- `generateOfferConnection`: a fresh initiator connection with a pending
offer negotiation (`sdp: null`, `connectionId` equal to the connection id). -/
def generateOfferConnection (st : NetworkState) (now : Nat) (freshId : String) :
    Connection :=
  { id := freshId
    clientId := none
    negotiation :=
      { type := .offer
        clientId := st.clientId
        connectionId := freshId
        sdp := none
        networkId := st.networkId
        timestamp := now }
    peerConnected := false
    peerDestroyed := false
    channelName := none }

/-- `generateAnswerConnection(offer)`: a fresh responder connection with a
pending answer negotiation carrying the offer's `connectionId`; the peer
is signalled with the offer (no effect on the Network state). -/
def generateAnswerConnection (st : NetworkState) (now : Nat) (freshId : String)
    (offer : Negotiation) : Connection :=
  { id := freshId
    clientId := none
    negotiation :=
      { type := .answer
        clientId := st.clientId
        connectionId := offer.connectionId
        sdp := none
        networkId := st.networkId
        timestamp := now }
    peerConnected := false
    peerDestroyed := false
    channelName := none }

/-- `addConnection(connection, clientId?)`: `registerClientId` when a
truthy clientId was supplied, store under the connection's id (a fresh
uuid, modelled as a new key), register the transport handlers, emit
`add-connection`. -/
def addConnection (st : NetworkState) (connection : Connection)
    (clientId : Option String) : NetworkState × Connection × List NetEvent :=
  let c := if truthyStr clientId then { connection with clientId := clientId } else connection
  ({ st with connections := st.connections ++ [c] }, c, [.addConnection c])

/-- `handleOffer(offer)`: reject (returning `null`, with no state change)
when the offer is our own, we already hold any connection to that
clientId, the sdp is falsy, the sdp's IP is on the rude list, or the
connection count has reached `maxConnections`; otherwise create and add a
responder connection for it. -/
def handleOffer (st : NetworkState) (now : Nat) (freshId : String)
    (offer : Negotiation) : NetworkState × Option Connection × List NetEvent :=
  if offer.clientId == st.clientId
      || hasConnection st offer.clientId
      || !(truthyStr offer.sdp)
      || isRudeOfSdp st offer.sdp
      || decide (st.connections.length ≥ st.config.maxConnections) then
    (st, none, [])
  else
    let connection := generateAnswerConnection st now freshId offer
    let r := addConnection st connection (some offer.clientId)
    (r.1, some r.2.1, r.2.2)

/-- `handleAnswer(answer)`: look the connection up by the answer's
`connectionId`; return when it is gone, already claimed (truthy
`clientId`), the answer's sdp is falsy, the sdp's IP is rude, or the
connection count has reached `maxConnections`; otherwise record
`connection.clientId = answer.clientId` and signal the peer. -/
def handleAnswer (st : NetworkState) (answer : Negotiation) :
    NetworkState × List NetEvent :=
  match st.connections.find? (fun c => c.id == answer.connectionId) with
  | none => (st, [])
  | some connection =>
    if truthyStr connection.clientId
        || !(truthyStr answer.sdp)
        || isRudeOfSdp st answer.sdp
        || decide (st.connections.length ≥ st.config.maxConnections) then
      (st, [])
    else
      ({ st with
          connections := st.connections.map fun c =>
            if c.id == answer.connectionId then
              { c with clientId := some answer.clientId }
            else c },
        [])

/-- `getOrGenerateOpenConnection`: the first connection with a falsy
`clientId` if any, else generate and add a fresh offer connection
(without any check against `maxConnections`). -/
def getOrGenerateOpenConnection (st : NetworkState) (now : Nat) (freshId : String) :
    NetworkState × Connection × List NetEvent :=
  match st.connections.find? (fun con => (con.clientId.getD "") == "") with
  | some oc => (st, oc, [])
  | none =>
    let oc := generateOfferConnection st now freshId
    let r := addConnection st oc none
    (r.1, r.2.1, r.2.2)

/-- `broadcastOffer` (the periodic offer broadcast): take or create the
open connection and broadcast an `offer` control message carrying its
negotiation (the spread of the negotiation overwrites the `timestamp` and
`connectionId` fields placed before it). -/
def broadcastOffer (st : NetworkState) (now : Nat)
    (freshConnId freshMsgId : String) : NetworkState × List NetEvent :=
  let r := getOrGenerateOpenConnection st now freshConnId
  let offer : Message :=
    { id := freshMsgId
      ttl := 6
      type := some "offer"
      clientId := st.clientId
      appId := some "network"
      destination := "*"
      data := .negotiation r.2.1.negotiation }
  let r2 := broadcastMessage r.1 now offer
  (r2.1, r.2.2 ++ r2.2)

/-- `handleOfferMessage`: `handleOffer(message.data)`; on acceptance an
`sdp` listener is registered whose later answer broadcast is
asynchronous, so it contributes nothing to this turn.  A payload that is
not a negotiation record always fails `handleOffer`'s sdp-presence test
(every field read yields `undefined`), leaving the state unchanged. -/
def handleOfferMessage (st : NetworkState) (now : Nat) (freshId : String)
    (message : Message) : NetworkState × List NetEvent :=
  match message.data with
  | .negotiation n =>
    let r := handleOffer st now freshId n
    (r.1, r.2.2)
  | _ => (st, [])

/-- `handleAnswerMessage`: `handleAnswer(message.data)`; a payload that is
not a negotiation record looks up `connections[undefined]` and returns. -/
def handleAnswerMessage (st : NetworkState) (message : Message) :
    NetworkState × List NetEvent :=
  match message.data with
  | .negotiation n => handleAnswer st n
  | _ => (st, [])

/-- `message.data.contents` as read by `handleLogMessage`; any payload
without the field logs `undefined`. -/
def logContents : MessageData → String
  | .log contents => contents
  | _ => "undefined"

/-- `handleLogMessage`: `console.log` only when the destination is `'*'`
or ourselves. -/
def handleLogMessage (st : NetworkState) (message : Message) :
    NetworkState × List NetEvent :=
  if message.destination == "*" || message.destination == st.clientId then
    (st, [.consoleLog message.clientId (logContents message.data)])
  else
    (st, [])

/-- The `switch (massage.type)` dispatch of `handleMessage` for messages
with our own `appId`.  `switchboard-volunteer` stops and reschedules the
switchboard repeater, which lives outside the embedded state; an unknown
type reaches `exhaustive()`, which throws (third component `true`). -/
def dispatchNetworkMessage (st : NetworkState) (now : Nat) (freshId : String)
    (message : Message) : NetworkState × List NetEvent × Bool :=
  match message.type with
  | some "offer" =>
    let r := handleOfferMessage st now freshId message
    (r.1, r.2, false)
  | some "answer" =>
    let r := handleAnswerMessage st message
    (r.1, r.2, false)
  | some "log" =>
    let r := handleLogMessage st message
    (r.1, r.2, false)
  | some "switchboard-volunteer" => (st, [], false)
  | _ => (st, [], true)

/-- `handleMessage`: drop already-seen ids; otherwise record the id,
dispatch control messages, rebroadcast, and emit `message`.  The Boolean
is true when the dispatch threw (in which case the rebroadcast and the
emit are skipped but the seen-record persists). -/
def handleMessage (st : NetworkState) (now : Nat) (freshId : String)
    (message : Message) : NetworkState × List NetEvent × Bool :=
  if truthyNum (assocLookup st.seenMessageIds message.id) then (st, [], false)
  else
    let st1 := { st with seenMessageIds := upsert st.seenMessageIds message.id now }
    let d :=
      if message.appId == some "network" then
        dispatchNetworkMessage st1 now freshId message
      else (st1, [], false)
    if d.2.2 then (d.1, d.2.1, true)
    else
      let r := rebroadcast d.1 now message
      (r.1, d.2.1 ++ r.2.1 ++ [.message message.appId r.2.2], false)

/-- The body of `handleSwitchboardResponse`'s `for` loop: offers through
`handleOffer` (each accepted offer consumes a fresh connection id; the
answer it later produces is posted back asynchronously), answers through
`handleAnswer`.  The wire type of a negotiation is `offer | answer`, so
the throwing `default` arm is unreachable. -/
def processBook (now : Nat) :
    NetworkState → List String → List Negotiation → NetworkState × List NetEvent
  | st, _, [] => (st, [])
  | st, freshIds, n :: rest =>
    match n.type with
    | .offer =>
      let r := handleOffer st now (freshIds.headD "") n
      let rr := processBook now r.1 freshIds.tail rest
      (rr.1, r.2.2 ++ rr.2)
    | .answer =>
      let r := handleAnswer st n
      let rr := processBook now r.1 freshIds rest
      (rr.1, r.2 ++ rr.2)

/-- `handleSwitchboardResponse`: process the book, then emit
`switchboard-response`. -/
def handleSwitchboardResponse (st : NetworkState) (now : Nat)
    (freshIds : List String) (book : List Negotiation) :
    NetworkState × List NetEvent :=
  let r := processBook now st freshIds book
  (r.1, r.2 ++ [.switchboardResponse book])

/-- `doSwitchboardRequest`: take or create the open connection; skip the
request while its negotiation is pending; otherwise POST it and process
the response (`none` models an HTTP error or a falsy response body, both
of which end the tick). -/
def doSwitchboardRequest (st : NetworkState) (now : Nat) (freshConnId : String)
    (freshIds : List String) (book : Option (List Negotiation)) :
    NetworkState × List NetEvent :=
  let r := getOrGenerateOpenConnection st now freshConnId
  if (r.2.1.negotiation.sdp.getD "") == "" then (r.1, r.2.2)
  else
    match book with
    | none => (r.1, r.2.2)
    | some b =>
      let r2 := handleSwitchboardResponse r.1 now freshIds b
      (r2.1, r.2.2 ++ r2.2)

/-- `destroyConnection`: detach the peer, delete the map entry, emit
`destroy-connection`. -/
def destroyConnection (st : NetworkState) (connection : Connection) :
    NetworkState × List NetEvent :=
  ({ st with connections := st.connections.filter fun c => !(c.id == connection.id) },
    [.destroyConnection connection.id])

/-- `addToRudeList(ip, clientId?)`: record the ip; when a truthy clientId
was supplied and we hold a connection to it, broadcast a `log` message
(through the public `broadcast`, which restamps it) and destroy that
connection. -/
def addToRudeList (st : NetworkState) (now : Nat) (freshMsgId : String)
    (ip : String) (clientId : Option String) : NetworkState × List NetEvent :=
  let st1 := { st with rudeIps := upsert st.rudeIps ip now }
  if truthyStr clientId then
    match getConnectionByClientId st1 (clientId.getD "") with
    | none => (st1, [])
    | some connection =>
      let r := broadcast st1 now freshMsgId
        { type := some "log"
          appId := some "network"
          data := .str "rude"
          destination := clientId }
      let r2 := destroyConnection r.1 connection
      (r2.1, r.2 ++ r2.2)
  else (st1, [])

/-- `garbageCollectSeenMessages`: delete seen ids older than
`MEMORY_DURATION`. -/
def garbageCollectSeenMessages (st : NetworkState) (now : Nat) : NetworkState :=
  { st with
    seenMessageIds := st.seenMessageIds.filter fun p =>
      !(decide ((now : Int) - (p.2 : Int) > (MEMORY_DURATION : Int))) }

/-- JS `seenClientIds[clientId]` uses the string `"undefined"` as the key
when the connection has no clientId. -/
def keyOfClientId : Option String → String
  | none => "undefined"
  | some s => s

/-- The traversal of `garbageCollectConnections`, which collects (at
most) one connection per run: the first destroyed connection, or, among
connections sharing a clientId, one whose peer lacks a channel name.
`collect` runs `return`, so the traversal stops at the first victim.
The lookup `this._connections[seenConnectionId]` always succeeds in JS
(recorded ids persist until the run returns); the unreachable `none` arm
stops the traversal. -/
def gcFindVictim (all : List Connection) :
    List Connection → List (String × String) → Option Connection
  | [], _ => none
  | c :: rest, seenClientIds =>
    if c.peerDestroyed then some c
    else
      match assocLookup seenClientIds (keyOfClientId c.clientId) with
      | some seenConnectionId =>
        if c.channelName = none then some c
        else
          match all.find? (fun x => x.id == seenConnectionId) with
          | some c2 =>
            if c2.channelName = none then some c2
            else gcFindVictim all rest (upsert seenClientIds (keyOfClientId c.clientId) c.id)
          | none => none
      | none => gcFindVictim all rest (upsert seenClientIds (keyOfClientId c.clientId) c.id)

/-- `garbageCollectConnections`: destroy the victim of the traversal, if
any. -/
def garbageCollectConnections (st : NetworkState) : NetworkState × List NetEvent :=
  match gcFindVictim st.connections st.connections [] with
  | some victim => destroyConnection st victim
  | none => (st, [])

/-- `garbageCollect`: seen-message sweep, then connection sweep. -/
def garbageCollect (st : NetworkState) (now : Nat) : NetworkState × List NetEvent :=
  let st1 := garbageCollectSeenMessages st now
  garbageCollectConnections st1

end Network

/-! ### Runs of operations -/

/-- One completed operation of the Network: an inbound message delivered
by a peer's `data` handler, a user call to `broadcast`, a tick of the
offer-broadcast interval, a switchboard request (with the response book
it got back, if any), a rude-list addition, a peer `close` event, and a
garbage-collection tick. -/
inductive NetOp where
  | opHandleMessage (now : Nat) (freshId : String) (m : Message)
  | opBroadcast (now : Nat) (freshId : String) (input : Network.BroadcastInput)
  | opBroadcastOffer (now : Nat) (freshConnId freshMsgId : String)
  | opSwitchboardRequest (now : Nat) (freshConnId : String)
      (freshIds : List String) (book : Option (List Negotiation))
  | opAddToRudeList (now : Nat) (freshMsgId : String) (ip : String)
      (clientId : Option String)
  | opPeerClose (connectionId : String)
  | opGarbageCollect (now : Nat)
deriving Repr

/-- Run one operation, returning the new state and its outputs. -/
def stepOp (st : NetworkState) : NetOp → NetworkState × List NetEvent
  | .opHandleMessage now freshId m =>
    let r := Network.handleMessage st now freshId m
    (r.1, r.2.1)
  | .opBroadcast now freshId input => Network.broadcast st now freshId input
  | .opBroadcastOffer now freshConnId freshMsgId =>
    Network.broadcastOffer st now freshConnId freshMsgId
  | .opSwitchboardRequest now freshConnId freshIds book =>
    Network.doSwitchboardRequest st now freshConnId freshIds book
  | .opAddToRudeList now freshMsgId ip clientId =>
    Network.addToRudeList st now freshMsgId ip clientId
  | .opPeerClose connectionId =>
    match st.connections.find? (fun c => c.id == connectionId) with
    | some c => Network.destroyConnection st c
    | none => (st, [])
  | .opGarbageCollect now => Network.garbageCollect st now

/-- Run a sequence of operations (states only). -/
def runOps (st : NetworkState) : List NetOp → NetworkState
  | [] => st
  | op :: rest => runOps (stepOp st op).1 rest

/-- Deliver a sequence of inbound messages to `handleMessage`, each with
the `Date.now()` and fresh uuid of its turn, collecting all outputs. -/
def runMessages : NetworkState → List (Nat × String × Message) → NetworkState × List NetEvent
  | st, [] => (st, [])
  | st, (now, freshId, m) :: rest =>
    let r := Network.handleMessage st now freshId m
    let rr := runMessages r.1 rest
    (rr.1, r.2.1 ++ rr.2)

/-- A connection with a falsy `clientId`: the node's "open connection". -/
def openConn (c : Connection) : Bool := (c.clientId.getD "") == ""

/-- The connection-count invariant the code actually maintains: the cap
`maxConnections` can be exceeded, but only by the single open connection
that `getOrGenerateOpenConnection` creates without checking the cap. -/
def ConnInv (st : NetworkState) : Prop :=
  st.connections.length ≤ st.config.maxConnections ∨
    (st.connections.length = st.config.maxConnections + 1 ∧
      ∃ c ∈ st.connections, openConn c = true)

/-! ### Concrete fixtures for closed statements -/

/-- The configuration every constructed node ends up with (the forced
defaults; see the configuration claim). -/
def cfgTen : NetworkConfig :=
  { offerBroadcastInterval := 1000 * 5
    switchboardRequestInterval := 1000 * 3
    garbageCollectInterval := 1000 * 5
    respectSwitchboardVolunteerMessages := true
    maxMessageRateBeforeRude := 100
    maxConnections := 10 }

/-- A node fresh out of the constructor: no connections, nothing seen,
nobody rude. -/
def stEmpty : NetworkState :=
  { clientId := "self"
    networkId := "net"
    config := cfgTen
    connections := []
    seenMessageIds := []
    rudeIps := [] }

/-- A plain application message. -/
def mFix : Message :=
  { id := "r1"
    clientId := "a"
    appId := some "x"
    type := some "y"
    ttl := 3
    destination := "*"
    data := .emptyObj }

/-- A pending open connection (offer negotiation without sdp yet). -/
def cPending : Connection :=
  { id := "open1"
    clientId := none
    negotiation :=
      { type := .offer, clientId := "self", connectionId := "open1",
        sdp := none, networkId := "net", timestamp := 0 }
    peerConnected := false
    peerDestroyed := false
    channelName := none }

/-- A fully connected peer connection to client `bob`. -/
def cLive : Connection :=
  { id := "conn2"
    clientId := some "bob"
    negotiation :=
      { type := .answer, clientId := "self", connectionId := "z",
        sdp := some "v=0 c=IN IP4 7.7.7.7", networkId := "net", timestamp := 0 }
    peerConnected := true
    peerDestroyed := false
    channelName := some "ch" }

/-- A `broadcast` argument that tries to spoof every stamped field. -/
def inputSpoof : Network.BroadcastInput :=
  { type := some "t"
    appId := some "a"
    data := .emptyObj
    id := some "spoofed"
    clientId := some "mallory"
    ttl := some 1
    destination := some "bob" }

/-- What actually goes out for `inputSpoof`: fresh id, own clientId,
ttl 6, destination `*`. -/
def stampedFix : Message :=
  { id := "fresh"
    clientId := "self"
    appId := some "a"
    type := some "t"
    ttl := 6
    destination := "*"
    data := .emptyObj }

/-- The `bob` connection before the transport connected. -/
def cNotConnected : Connection := { cLive with peerConnected := false }

/-- A node holding one not-yet-Connected connection to `bob`. -/
def stBobPending : NetworkState := { stEmpty with connections := [cNotConnected] }

/-- An incoming offer from `bob` carrying sdp. -/
def offerFromBob : Negotiation :=
  { type := .offer
    clientId := "bob"
    connectionId := "bc1"
    sdp := some "v=0 c=IN IP4 5.5.5.5"
    networkId := "net"
    timestamp := 7 }

/-- A node whose connection pool starts with a pending connection,
followed by a Connected peer. -/
def stPendingFirst : NetworkState := { stEmpty with connections := [cPending, cLive] }

/-- A `broadcast` argument with the required `type` field missing. -/
def inputNoType : Network.BroadcastInput :=
  { appId := some "my-app", data := .str "hello" }

/-- A rude list (max rate 1) with two messages registered at 10 ms and
20 ms. -/
def rlTwo : RudeList :=
  RudeList.registerMessage
    (RudeList.registerMessage { maxMessageRate := 1, events := [] } 10 "addr")
    20 "addr"

/-- An in-band answer message from peer `i` for the open connection
`c i` (ttl 0: nothing further is rebroadcast). -/
def answerMsgFix (i : Nat) : Message :=
  { id := "am" ++ toString i
    clientId := "p" ++ toString i
    appId := some "network"
    type := some "answer"
    ttl := 0
    destination := "*"
    data := .negotiation
      { type := .answer
        clientId := "p" ++ toString i
        connectionId := "c" ++ toString i
        sdp := some "x 9.9.9.9 y"
        networkId := "net"
        timestamp := 0 } }

/-- One round of the scenario that fills the pool: an offer-broadcast
tick creates the open connection `c i`, then peer `i`'s answer claims
it. -/
def roundFix (i : Nat) : List NetOp :=
  [ .opBroadcastOffer (2 * i) ("c" ++ toString i) ("om" ++ toString i),
    .opHandleMessage (2 * i + 1) "" (answerMsgFix i) ]

/-- An in-band offer message from peer 10, accepted as the tenth
connection. -/
def offerMsgFix : Message :=
  { id := "off10"
    clientId := "p10"
    appId := some "network"
    type := some "offer"
    ttl := 0
    destination := "*"
    data := .negotiation
      { type := .offer
        clientId := "p10"
        connectionId := "oc10"
        sdp := some "x 9.9.9.9 y"
        networkId := "net"
        timestamp := 0 } }

/-- A run that drives a fresh node (maxConnections 10) to ten in-use
connections and then lets the offer-broadcast tick create an eleventh. -/
def c3ops : List NetOp :=
  (((List.range 9).map fun i => roundFix (i + 1)).flatten)
    ++ [.opHandleMessage 100 "f10" offerMsgFix]
    ++ [.opBroadcastOffer 101 "c11" "om11"]

/-! ### Basic lemmas about the JS-map embedding -/

lemma assocLookup_upsert {α : Type} (l : List (String × α)) (k : String) (v : α)
    (k' : String) :
    assocLookup (upsert l k v) k' = if k' = k then some v else assocLookup l k' := by
  induction l with
  | nil =>
    show (if k = k' then some v else none) = if k' = k then some v else none
    by_cases h : k = k'
    · rw [if_pos h, if_pos h.symm]
    · rw [if_neg h, if_neg (fun hc => h hc.symm)]
  | cons p rest ih =>
    show assocLookup (if p.1 = k then (k, v) :: rest else p :: upsert rest k v) k' = _
    by_cases hp : p.1 = k
    · rw [if_pos hp]
      show (if k = k' then some v else assocLookup rest k') = _
      by_cases h : k = k'
      · rw [if_pos h, if_pos h.symm]
      · rw [if_neg h, if_neg (fun hc => h hc.symm)]
        show _ = if p.1 = k' then some p.2 else assocLookup rest k'
        rw [if_neg (fun hc : p.1 = k' => h (hp ▸ hc))]
    · rw [if_neg hp]
      show (if p.1 = k' then some p.2 else assocLookup (upsert rest k v) k') = _
      by_cases hpk : p.1 = k'
      · rw [if_pos hpk]
        have h : ¬ k' = k := fun hc => hp (by rw [hpk, hc])
        show _ = if k' = k then some v else assocLookup (p :: rest) k'
        rw [if_neg h]
        show _ = if p.1 = k' then some p.2 else assocLookup rest k'
        rw [if_pos hpk]
      · rw [if_neg hpk, ih]
        by_cases h : k' = k
        · rw [if_pos h, if_pos h]
        · rw [if_neg h, if_neg h]
          show _ = if p.1 = k' then some p.2 else assocLookup rest k'
          rw [if_neg hpk]

lemma msgEventCount_append (i : String) (a b : List NetEvent) :
    msgEventCount i (a ++ b) = msgEventCount i a + msgEventCount i b := by
  simp [msgEventCount, List.countP_append]

lemma msgEventCount_nil (i : String) : msgEventCount i [] = 0 := rfl

/-! ### Per-operation facts used by the claims -/

namespace Network

lemma sendLoop_events (cs : List Connection) (m : Message) :
    ∀ e ∈ (sendLoop cs m).1, ∃ cid, e = .sent cid m := by
  induction cs with
  | nil => intro e he; simp [sendLoop] at he
  | cons c rest ih =>
    intro e he
    cases hb : (c.negotiation.sdp.getD "" == "") with
    | true => simp [sendLoop, hb] at he
    | false =>
      simp only [sendLoop, hb, Bool.false_eq_true, if_false, List.mem_append] at he
      rcases he with he | he
      · cases hc : c.peerConnected with
        | true => simp [send, hc] at he; exact ⟨c.id, he⟩
        | false => simp [send, hc] at he
      · exact ih e he

lemma msgEventCount_sendLoop (i : String) (cs : List Connection) (m : Message) :
    msgEventCount i (sendLoop cs m).1 = 0 := by
  rw [msgEventCount, List.countP_eq_zero]
  intro e he
  obtain ⟨cid, rfl⟩ := sendLoop_events cs m e he
  simp

lemma broadcastMessage_connections (st : NetworkState) (now : Nat) (m : Message) :
    (broadcastMessage st now m).1.connections = st.connections := rfl

lemma broadcastMessage_config (st : NetworkState) (now : Nat) (m : Message) :
    (broadcastMessage st now m).1.config = st.config := rfl

lemma broadcastMessage_seen (st : NetworkState) (now : Nat) (m : Message) :
    (broadcastMessage st now m).1.seenMessageIds = upsert st.seenMessageIds m.id now := rfl

lemma msgEventCount_broadcastMessage (i : String) (st : NetworkState) (now : Nat)
    (m : Message) : msgEventCount i (broadcastMessage st now m).2 = 0 := by
  unfold broadcastMessage
  simp only [msgEventCount_append]
  rw [msgEventCount_sendLoop]
  split <;> simp [msgEventCount, List.countP_cons, List.countP_nil]

lemma rebroadcast_id (st : NetworkState) (now : Nat) (m : Message) :
    (rebroadcast st now m).2.2.id = m.id := by
  unfold rebroadcast; split <;> rfl

lemma rebroadcast_connections (st : NetworkState) (now : Nat) (m : Message) :
    (rebroadcast st now m).1.connections = st.connections := by
  unfold rebroadcast; split <;> rfl

lemma rebroadcast_config (st : NetworkState) (now : Nat) (m : Message) :
    (rebroadcast st now m).1.config = st.config := by
  unfold rebroadcast; split <;> rfl

lemma msgEventCount_rebroadcast (i : String) (st : NetworkState) (now : Nat)
    (m : Message) : msgEventCount i (rebroadcast st now m).2.1 = 0 := by
  unfold rebroadcast
  split
  · rfl
  · exact msgEventCount_broadcastMessage i st now _

lemma rebroadcast_seen_lookup (st : NetworkState) (now : Nat) (m : Message)
    (i : String) :
    assocLookup (rebroadcast st now m).1.seenMessageIds i =
      if i = m.id ∧ m.ttl ≠ 0 then some now else assocLookup st.seenMessageIds i := by
  unfold rebroadcast
  split
  · next h => simp [h]
  · next h =>
    rw [broadcastMessage_seen]
    simp only []
    rw [assocLookup_upsert]
    by_cases hi : i = m.id <;> simp [hi, h]

lemma handleOffer_seen (st : NetworkState) (now : Nat) (freshId : String)
    (offer : Negotiation) :
    (handleOffer st now freshId offer).1.seenMessageIds = st.seenMessageIds := by
  unfold handleOffer
  split <;> rfl

lemma handleAnswer_seen (st : NetworkState) (answer : Negotiation) :
    (handleAnswer st answer).1.seenMessageIds = st.seenMessageIds := by
  unfold handleAnswer
  split
  · rfl
  · split <;> rfl

lemma dispatch_seen (st : NetworkState) (now : Nat) (freshId : String)
    (message : Message) :
    (dispatchNetworkMessage st now freshId message).1.seenMessageIds =
      st.seenMessageIds := by
  unfold dispatchNetworkMessage
  split
  · unfold handleOfferMessage
    split
    · exact handleOffer_seen _ _ _ _
    · rfl
  · unfold handleAnswerMessage
    split
    · exact handleAnswer_seen _ _
    · rfl
  · unfold handleLogMessage
    split <;> rfl
  · rfl
  · rfl

lemma handleOffer_rude (st : NetworkState) (now : Nat) (freshId : String)
    (offer : Negotiation) :
    (handleOffer st now freshId offer).1.rudeIps = st.rudeIps := by
  unfold handleOffer
  split <;> rfl

lemma handleAnswer_rude (st : NetworkState) (answer : Negotiation) :
    (handleAnswer st answer).1.rudeIps = st.rudeIps := by
  unfold handleAnswer
  split
  · rfl
  · split <;> rfl

lemma msgEventCount_handleOffer (i : String) (st : NetworkState) (now : Nat)
    (freshId : String) (offer : Negotiation) :
    msgEventCount i (handleOffer st now freshId offer).2.2 = 0 := by
  unfold handleOffer
  split
  · rfl
  · simp [addConnection, msgEventCount, List.countP_cons, List.countP_nil]

lemma msgEventCount_handleAnswer (i : String) (st : NetworkState)
    (answer : Negotiation) :
    msgEventCount i (handleAnswer st answer).2 = 0 := by
  unfold handleAnswer
  split
  · rfl
  · split <;> rfl

lemma msgEventCount_dispatch (i : String) (st : NetworkState) (now : Nat)
    (freshId : String) (message : Message) :
    msgEventCount i (dispatchNetworkMessage st now freshId message).2.1 = 0 := by
  unfold dispatchNetworkMessage
  split
  · unfold handleOfferMessage
    split
    · exact msgEventCount_handleOffer _ _ _ _ _
    · rfl
  · unfold handleAnswerMessage
    split
    · exact msgEventCount_handleAnswer _ _ _
    · rfl
  · unfold handleLogMessage
    split <;> simp [msgEventCount, List.countP_cons, List.countP_nil]
  · rfl
  · rfl

/-- Dropping an already-seen message: no state change, no output, no
dispatch, no rebroadcast. -/
lemma handleMessage_drop (st : NetworkState) (now : Nat) (freshId : String)
    (message : Message)
    (h : truthyNum (assocLookup st.seenMessageIds message.id) = true) :
    handleMessage st now freshId message = (st, [], false) := by
  unfold handleMessage
  rw [h]
  rfl

/-- After processing a not-yet-seen message, its id maps to the turn's
timestamp and no other seen entry changes. -/
lemma handleMessage_seen_lookup (st : NetworkState) (now : Nat) (freshId : String)
    (message : Message) (i : String)
    (h : truthyNum (assocLookup st.seenMessageIds message.id) = false) :
    assocLookup (handleMessage st now freshId message).1.seenMessageIds i =
      if i = message.id then some now else assocLookup st.seenMessageIds i := by
  unfold handleMessage
  rw [h]
  simp only [Bool.false_eq_true, if_false]
  set st1 : NetworkState :=
    { st with seenMessageIds := upsert st.seenMessageIds message.id now } with hst1
  have hseen1 : ∀ j, assocLookup st1.seenMessageIds j =
      if j = message.id then some now else assocLookup st.seenMessageIds j := by
    intro j; rw [hst1]; exact assocLookup_upsert _ _ _ _
  set d := if message.appId == some "network" then
      dispatchNetworkMessage st1 now freshId message
    else (st1, [], false) with hd
  have hdseen : d.1.seenMessageIds = st1.seenMessageIds := by
    rw [hd]; split
    · exact dispatch_seen _ _ _ _
    · rfl
  split
  · rw [hdseen]; exact hseen1 i
  · simp only []
    rw [rebroadcast_seen_lookup, hdseen, hseen1 i]
    by_cases hi : i = message.id <;> by_cases ht : message.ttl = 0 <;> simp [hi, ht]

/-- One `handleMessage` turn emits no `message` event for any other id. -/
lemma handleMessage_count_other (st : NetworkState) (now : Nat) (freshId : String)
    (message : Message) (i : String) (hne : message.id ≠ i) :
    msgEventCount i (handleMessage st now freshId message).2.1 = 0 := by
  have hsingle : ∀ (ap : Option String) (st2 : NetworkState),
      msgEventCount i [NetEvent.message ap (rebroadcast st2 now message).2.2] = 0 := by
    intro ap st2
    simp [msgEventCount, List.countP_cons, List.countP_nil, rebroadcast_id, hne]
  unfold handleMessage
  split
  · rfl
  · split
    · dsimp only
      split
      · exact msgEventCount_dispatch _ _ _ _ _
      · simp only [msgEventCount_append]
        rw [msgEventCount_dispatch, msgEventCount_rebroadcast, hsingle]
    · simp only [Bool.false_eq_true, if_false, List.nil_append, msgEventCount_append]
      rw [msgEventCount_rebroadcast, hsingle]

/-- One `handleMessage` turn emits at most one `message` event for the
processed id. -/
lemma handleMessage_count_self (st : NetworkState) (now : Nat) (freshId : String)
    (message : Message) :
    msgEventCount message.id (handleMessage st now freshId message).2.1 ≤ 1 := by
  have hsingle : ∀ (ap : Option String) (st2 : NetworkState),
      msgEventCount message.id
        [NetEvent.message ap (rebroadcast st2 now message).2.2] ≤ 1 := by
    intro ap st2
    simp only [msgEventCount, List.countP_cons, List.countP_nil]
    split <;> omega
  unfold handleMessage
  split
  · exact Nat.zero_le 1
  · split
    · dsimp only
      split
      · rw [msgEventCount_dispatch]; exact Nat.zero_le 1
      · simp only [msgEventCount_append]
        rw [msgEventCount_dispatch, msgEventCount_rebroadcast]
        simpa using hsingle _ _
    · simp only [Bool.false_eq_true, if_false, List.nil_append, msgEventCount_append]
      rw [msgEventCount_rebroadcast]
      simpa using hsingle _ _

end Network

/-- Dedup over a whole run of `handleMessage` turns with positive clock
readings: an id that is already truthily recorded yields no `message`
event at all, and every id yields at most one. -/
lemma runMessages_count (inputs : List (Nat × String × Message)) :
    ∀ st : NetworkState, (∀ x ∈ inputs, 0 < x.1) → ∀ i : String,
      (truthyNum (assocLookup st.seenMessageIds i) = true →
        msgEventCount i (runMessages st inputs).2 = 0) ∧
      msgEventCount i (runMessages st inputs).2 ≤ 1 := by
  induction inputs with
  | nil =>
    intro st _ i
    exact ⟨fun _ => rfl, by simp [runMessages, msgEventCount_nil]⟩
  | cons x rest ih =>
    intro st hpos i
    obtain ⟨now, fid, m⟩ := x
    have hnow : 0 < now := hpos _ (List.mem_cons_self _ _)
    have hrest : ∀ y ∈ rest, 0 < y.1 := fun y hy => hpos y (List.mem_cons_of_mem _ hy)
    have hrun : runMessages st ((now, fid, m) :: rest) =
        ((runMessages (Network.handleMessage st now fid m).1 rest).1,
          (Network.handleMessage st now fid m).2.1 ++
            (runMessages (Network.handleMessage st now fid m).1 rest).2) := rfl
    cases hseen : truthyNum (assocLookup st.seenMessageIds m.id) with
    | true =>
      have hstep := Network.handleMessage_drop st now fid m hseen
      rw [hrun, hstep]
      simp only [List.nil_append]
      exact ih st hrest i
    | false =>
      have hlook : ∀ j, assocLookup (Network.handleMessage st now fid m).1.seenMessageIds j =
          if j = m.id then some now else assocLookup st.seenMessageIds j :=
        fun j => Network.handleMessage_seen_lookup st now fid m j hseen
      have htruthy_now : truthyNum (some now) = true := by
        simp [truthyNum]; omega
      by_cases hi : i = m.id
      · constructor
        · intro htr
          rw [hi, hseen] at htr
          cases htr
        · rw [hrun, msgEventCount_append]
          have h1 : msgEventCount i (Network.handleMessage st now fid m).2.1 ≤ 1 := by
            rw [hi]
            exact Network.handleMessage_count_self st now fid m
          have h2 : msgEventCount i
              (runMessages (Network.handleMessage st now fid m).1 rest).2 = 0 := by
            refine (ih (Network.handleMessage st now fid m).1 hrest i).1 ?_
            rw [hlook i, if_pos hi]
            exact htruthy_now
          omega
      · have hne : m.id ≠ i := fun hc => hi hc.symm
        have h1 : msgEventCount i (Network.handleMessage st now fid m).2.1 = 0 :=
          Network.handleMessage_count_other st now fid m i hne
        have hlooki : assocLookup (Network.handleMessage st now fid m).1.seenMessageIds i =
            assocLookup st.seenMessageIds i := by
          rw [hlook i, if_neg hi]
        constructor
        · intro htr
          rw [hrun, msgEventCount_append, h1]
          have h2 := (ih (Network.handleMessage st now fid m).1 hrest i).1
            (by rw [hlooki]; exact htr)
          omega
        · rw [hrun, msgEventCount_append, h1]
          have h2 := (ih (Network.handleMessage st now fid m).1 hrest i).2
          omega

/-- Every payload-carrying output of `broadcastMessage` (a `peer.send`
datagram or the `broadcast-message` event) carries exactly the message it
was given. -/
lemma broadcastMessage_eventMessage (st : NetworkState) (now : Nat) (m : Message) :
    ∀ e ∈ (Network.broadcastMessage st now m).2, ∀ mm, eventMessage e = some mm →
      mm = m := by
  intro e he mm hm
  unfold Network.broadcastMessage at he
  simp only [List.mem_append] at he
  rcases he with he | he
  · obtain ⟨cid, rfl⟩ := Network.sendLoop_events _ _ e he
    simpa [eventMessage] using hm.symm
  · split at he
    · simp only [List.mem_singleton] at he
      subst he
      simpa [eventMessage] using hm.symm
    · simp at he

/-- No entry for a key outside the association list's key set. -/
lemma assocLookup_eq_none {α : Type} (l : List (String × α)) (k : String)
    (h : k ∉ l.map Prod.fst) : assocLookup l k = none := by
  induction l with
  | nil => rfl
  | cons q rest ih =>
    simp only [List.map_cons, List.mem_cons, not_or] at h
    show (if q.1 = k then some q.2 else assocLookup rest k) = none
    rw [if_neg (fun hc => h.1 hc.symm)]
    exact ih h.2

/-- Lookup through a filter, on a JS map (no duplicate keys): an entry
survives the filter exactly when it was present and passes the
predicate. -/
lemma assocLookup_filter (l : List (String × Nat))
    (hnd : (l.map Prod.fst).Nodup) (p : String × Nat → Bool) (k : String) (v : Nat) :
    assocLookup (l.filter p) k = some v ↔
      assocLookup l k = some v ∧ p (k, v) = true := by
  induction l with
  | nil => simp [assocLookup]
  | cons q rest ih =>
    obtain ⟨q1, q2⟩ := q
    have hnd' : (rest.map Prod.fst).Nodup := (List.nodup_cons.mp hnd).2
    have hq : q1 ∉ rest.map Prod.fst := (List.nodup_cons.mp hnd).1
    by_cases hk : q1 = k
    · subst hk
      have hfilter_none : assocLookup (rest.filter p) q1 = none := by
        refine assocLookup_eq_none _ _ (fun hc => ?_)
        simp only [List.mem_map] at hc
        obtain ⟨x, hx, hxk⟩ := hc
        exact hq (List.mem_map.mpr ⟨x, (List.mem_filter.mp hx).1, hxk⟩)
      cases hp : p (q1, q2) with
      | true =>
        rw [List.filter_cons_of_pos hp]
        show (if q1 = q1 then some q2 else assocLookup (rest.filter p) q1) = some v ↔
          (if q1 = q1 then some q2 else assocLookup rest q1) = some v ∧
            p (q1, v) = true
        rw [if_pos rfl, if_pos rfl]
        constructor
        · intro hv
          have hv2 : q2 = v := by injection hv
          subst hv2
          exact ⟨rfl, hp⟩
        · exact fun hv => hv.1
      | false =>
        rw [List.filter_cons_of_neg (by rw [hp]; exact Bool.false_ne_true)]
        show assocLookup (rest.filter p) q1 = some v ↔
          (if q1 = q1 then some q2 else assocLookup rest q1) = some v ∧
            p (q1, v) = true
        rw [if_pos rfl, hfilter_none]
        constructor
        · intro hv; cases hv
        · rintro ⟨hv, hpv⟩
          have hv2 : q2 = v := by injection hv
          subst hv2
          rw [hpv] at hp
          cases hp
    · cases hp : p (q1, q2) with
      | true =>
        rw [List.filter_cons_of_pos hp]
        show (if q1 = k then some q2 else assocLookup (rest.filter p) k) = some v ↔
          (if q1 = k then some q2 else assocLookup rest k) = some v ∧
            p (k, v) = true
        rw [if_neg hk, if_neg hk]
        exact ih hnd'
      | false =>
        rw [List.filter_cons_of_neg (by rw [hp]; exact Bool.false_ne_true)]
        show assocLookup (rest.filter p) k = some v ↔
          (if q1 = k then some q2 else assocLookup rest k) = some v ∧
            p (k, v) = true
        rw [if_neg hk]
        exact ih hnd'

/-! ### The claims -/

/-- C1 (confirmed): per-node deduplication.  Over any sequence of inbound
messages delivered to one node's `handleMessage` (with positive clock
readings), each message id causes at most one `message` event; and an
inbound message whose id is truthily recorded in seen memory is dropped
with no state change, no dispatch, no rebroadcast, and no output of any
kind. -/
theorem c1_per_node_dedup (st : NetworkState)
    (inputs : List (Nat × String × Message)) (i : String)
    (hpos : ∀ x ∈ inputs, 0 < x.1) :
    msgEventCount i (runMessages st inputs).2 ≤ 1 ∧
      ∀ (now : Nat) (freshId : String) (m : Message),
        truthyNum (assocLookup st.seenMessageIds m.id) = true →
        Network.handleMessage st now freshId m = (st, [], false) :=
  ⟨(runMessages_count inputs st hpos i).2,
    fun now freshId m h => Network.handleMessage_drop st now freshId m h⟩

/-- Witness for C1: the same message delivered twice. -/
theorem c1_per_node_dedup_witness :
    msgEventCount "r1" (runMessages stEmpty [(1, "f", mFix), (2, "g", mFix)]).2 ≤ 1 :=
  (c1_per_node_dedup stEmpty [(1, "f", mFix), (2, "g", mFix)] "r1" (by decide)).1

/-- C2 counterexample: the rebroadcast step does not forward the message
with its ttl unchanged — a received message with ttl 3 is forwarded (and
announced in `broadcast-message`) with ttl 2, the field having been
decremented in place. -/
theorem c2_counterexample :
    (Network.rebroadcast stEmpty 9 mFix).2.1 =
        [NetEvent.broadcastMessage { mFix with ttl := 2 }] ∧
      (Network.rebroadcast stEmpty 9 mFix).2.2.ttl = 2 ∧ mFix.ttl = 3 :=
  ⟨rfl, rfl, rfl⟩

/-- C2 (corrected): the rebroadcast step runs exactly when the received
message's ttl is non-zero, and it forwards the message with `ttl`
decremented by one (the id unchanged), recording the id in seen memory;
there is no signatures field in this revision, so the hop count is
carried by `ttl` itself. -/
theorem c2_rebroadcast_decrements (st : NetworkState) (now : Nat) (m : Message) :
    (m.ttl = 0 → Network.rebroadcast st now m = (st, [], m)) ∧
    (m.ttl ≠ 0 →
      assocLookup (Network.rebroadcast st now m).1.seenMessageIds m.id = some now ∧
      (Network.rebroadcast st now m).2.2.ttl = m.ttl - 1 ∧
      ∀ e ∈ (Network.rebroadcast st now m).2.1, ∀ mm, eventMessage e = some mm →
        mm.ttl = m.ttl - 1 ∧ mm.id = m.id) := by
  constructor
  · intro h
    unfold Network.rebroadcast
    rw [if_pos h]
  · intro h
    refine ⟨?_, ?_, ?_⟩
    · rw [Network.rebroadcast_seen_lookup]
      simp [h]
    · unfold Network.rebroadcast
      rw [if_neg h]
    · intro e he mm hm
      have hevs : (Network.rebroadcast st now m).2.1 =
          (Network.broadcastMessage st now { m with ttl := m.ttl - 1 }).2 := by
        unfold Network.rebroadcast
        rw [if_neg h]
      rw [hevs] at he
      have := broadcastMessage_eventMessage st now { m with ttl := m.ttl - 1 } e he mm hm
      subst this
      exact ⟨rfl, rfl⟩

/-- Witness for C2 at ttl 3. -/
theorem c2_rebroadcast_decrements_witness :
    mFix.ttl ≠ 0 ∧
      ((Network.rebroadcast stEmpty 9 mFix).2.2.ttl = mFix.ttl - 1) :=
  ⟨by decide, ((c2_rebroadcast_decrements stEmpty 9 mFix).2 (by decide)).2.1⟩

/-- C9 (confirmed): after the sweep, an entry for a message id remains in
seen memory iff its recorded timestamp lies within the retention period
of the current time; this holds for `MessageMemory.garbageCollect`
(arbitrary `memoryDuration`) and for the Network-level
`garbageCollectSeenMessages` with MEMORY_DURATION = 60000 ms. -/
theorem c9_seen_memory_sweep (mm : MessageMemory) (st : NetworkState) (now : Nat)
    (i : String) (ts : Nat)
    (hmm : (mm.mem.map Prod.fst).Nodup)
    (hst : (st.seenMessageIds.map Prod.fst).Nodup) :
    (assocLookup (mm.garbageCollect now).mem i = some ts ↔
      assocLookup mm.mem i = some ts ∧ (now : Int) - ts ≤ mm.memoryDuration) ∧
    (assocLookup (Network.garbageCollectSeenMessages st now).seenMessageIds i =
        some ts ↔
      assocLookup st.seenMessageIds i = some ts ∧
        (now : Int) - ts ≤ Network.MEMORY_DURATION) := by
  constructor
  · rw [show (mm.garbageCollect now).mem = mm.mem.filter
        (fun p => !(decide ((now : Int) - (p.2 : Int) > (mm.memoryDuration : Int))))
      from rfl]
    rw [assocLookup_filter mm.mem hmm _ i ts]
    simp
  · rw [show (Network.garbageCollectSeenMessages st now).seenMessageIds =
        st.seenMessageIds.filter
          (fun p => !(decide ((now : Int) - (p.2 : Int) >
            (Network.MEMORY_DURATION : Int))))
      from rfl]
    rw [assocLookup_filter st.seenMessageIds hst _ i ts]
    simp

/-- Witness for C9: a 50s-old entry survives a sweep, checked through the
theorem at a concrete memory. -/
theorem c9_seen_memory_sweep_witness :
    assocLookup (MessageMemory.garbageCollect
        { memoryDuration := 60000, mem := [("a", 10000)] } 60000).mem "a" =
      some 10000 :=
  ((c9_seen_memory_sweep { memoryDuration := 60000, mem := [("a", 10000)] }
      stEmpty 60000 "a" 10000 (by decide) (by decide)).1).mpr
    ⟨by decide, by decide⟩

/-- C10 (confirmed): the public `broadcast` unconditionally stamps the
outgoing message — whatever id, clientId, ttl or destination the caller
supplied, every copy that leaves the node (and the `broadcast-message`
announcement) carries the freshly generated uuid as id, the node's own
clientId, ttl 6 and destination `*`, and the fresh id is recorded in
seen memory. -/
theorem c10_broadcast_stamping (st : NetworkState) (now : Nat) (freshId : String)
    (input : Network.BroadcastInput) :
    (∀ e ∈ (Network.broadcast st now freshId input).2, ∀ mm,
        eventMessage e = some mm →
      mm.id = freshId ∧ mm.clientId = st.clientId ∧ mm.ttl = 6 ∧
        mm.destination = "*") ∧
    assocLookup (Network.broadcast st now freshId input).1.seenMessageIds freshId =
      some now := by
  constructor
  · intro e he mm hm
    have := broadcastMessage_eventMessage st now _ e he mm hm
    subst this
    exact ⟨rfl, rfl, rfl, rfl⟩
  · rw [show (Network.broadcast st now freshId input).1.seenMessageIds =
        upsert st.seenMessageIds freshId now from rfl]
    rw [assocLookup_upsert]
    simp

/-- Witness for C10: a spoofing attempt gets fully restamped. -/
theorem c10_broadcast_stamping_witness :
    stampedFix.id = "fresh" ∧ stampedFix.clientId = "self" ∧
      stampedFix.ttl = 6 ∧ stampedFix.destination = "*" :=
  (c10_broadcast_stamping stEmpty 50 "fresh" inputSpoof).1
    (NetEvent.broadcastMessage stampedFix) (by decide) stampedFix (by decide)

/-- `hasConnection` holds exactly when some connection in the pool,
whatever its state, records that clientId. -/
lemma hasConnection_iff (st : NetworkState) (cid : String) :
    Network.hasConnection st cid = true ↔
      ∃ c ∈ st.connections, c.clientId = some cid := by
  unfold Network.hasConnection Network.getConnectionByClientId
  rw [List.find?_isSome]
  constructor
  · rintro ⟨c, hm, hp⟩
    exact ⟨c, hm, by simpa using hp⟩
  · rintro ⟨c, hm, hp⟩
    exact ⟨c, hm, by simpa using hp⟩

/-- C4 counterexample: an incoming offer from `bob` satisfying every
condition of the claim — not our own, no existing Connected connection
to `bob` (the only connection to `bob` is not Connected), sdp present,
not rude, connection count strictly below the cap — which the code
nevertheless rejects: `handleOffer` returns null and creates nothing. -/
theorem c4_counterexample :
    (Network.handleOffer stBobPending 3 "f1" offerFromBob).2.1 = none ∧
      offerFromBob.clientId ≠ stBobPending.clientId ∧
      stBobPending.connections.all
        (fun c => !(c.clientId == some offerFromBob.clientId && c.peerConnected))
        = true ∧
      truthyStr offerFromBob.sdp = true ∧
      Network.isRudeOfSdp stBobPending offerFromBob.sdp = false ∧
      stBobPending.connections.length < stBobPending.config.maxConnections := by
  refine ⟨rfl, by decide, by decide, rfl, rfl, by decide⟩

/-- C4 (corrected): `handleOffer` accepts (returns a connection) iff the
offer is not our own, *no connection in any state* records the
originator's clientId (not merely no Connected one), the sdp is present,
the sdp's IP is not on the rude list, and the count is strictly below
`maxConnections`.  On rejection the state is unchanged and null is
returned with no output; on acceptance exactly one new responder
connection is appended, carrying the originator's clientId. -/
theorem c4_offer_acceptance (st : NetworkState) (now : Nat) (freshId : String)
    (offer : Negotiation) :
    ((Network.handleOffer st now freshId offer).2.1.isSome = true ↔
      (offer.clientId ≠ st.clientId ∧
        (∀ c ∈ st.connections, c.clientId ≠ some offer.clientId) ∧
        truthyStr offer.sdp = true ∧
        Network.isRudeOfSdp st offer.sdp = false ∧
        st.connections.length < st.config.maxConnections)) ∧
    ((Network.handleOffer st now freshId offer).2.1 = none →
      Network.handleOffer st now freshId offer = (st, none, [])) ∧
    (∀ c, (Network.handleOffer st now freshId offer).2.1 = some c →
      (Network.handleOffer st now freshId offer).1.connections =
        st.connections ++ [c] ∧
      (offer.clientId ≠ "" → c.clientId = some offer.clientId)) := by
  unfold Network.handleOffer
  by_cases hg : (offer.clientId == st.clientId
      || Network.hasConnection st offer.clientId
      || !(truthyStr offer.sdp)
      || Network.isRudeOfSdp st offer.sdp
      || decide (st.connections.length ≥ st.config.maxConnections)) = true
  · rw [if_pos hg]
    refine ⟨?_, fun _ => rfl, fun c hc => by cases hc⟩
    simp only [Option.isSome_none, Bool.false_eq_true, false_iff]
    intro hcontra
    obtain ⟨h1, h2, h3, h4, h5⟩ := hcontra
    simp only [Bool.or_eq_true, beq_iff_eq, Bool.not_eq_true',
      decide_eq_true_eq] at hg
    rcases hg with ((((hg | hg) | hg) | hg) | hg)
    · exact h1 hg
    · obtain ⟨c, hm, hp⟩ := (hasConnection_iff st offer.clientId).mp hg
      exact h2 c hm hp
    · rw [hg] at h3; cases h3
    · rw [hg] at h4; cases h4
    · omega
  · rw [if_neg hg]
    simp only [Bool.or_eq_true, beq_iff_eq, Bool.not_eq_true',
      decide_eq_true_eq, not_or] at hg
    obtain ⟨⟨⟨⟨hg1, hg2⟩, hg3⟩, hg4⟩, hg5⟩ := hg
    refine ⟨?_, ?_, ?_⟩
    · simp only [Option.isSome_some, true_iff]
      refine ⟨hg1, ?_, ?_, ?_, by omega⟩
      · intro c hm hp
        exact hg2 ((hasConnection_iff st offer.clientId).mpr ⟨c, hm, hp⟩)
      · cases h : truthyStr offer.sdp
        · exact absurd h hg3
        · rfl
      · cases h : Network.isRudeOfSdp st offer.sdp
        · rfl
        · exact absurd h hg4
    · intro hc; cases hc
    · intro c hc
      have hcc : c = (Network.addConnection st
          (Network.generateAnswerConnection st now freshId offer)
          (some offer.clientId)).2.1 := by
        injection hc with hc2
        exact hc2.symm
      subst hcc
      constructor
      · rfl
      · intro hne
        unfold Network.addConnection
        have htr : truthyStr (some offer.clientId) = true := by
          simp [truthyStr, hne]
        simp only [htr, if_true]

/-- Witness for C4 at the accepting side: a fresh node accepts `bob`'s
offer. -/
theorem c4_offer_acceptance_witness :
    (Network.handleOffer stEmpty 3 "f1" offerFromBob).2.1.isSome = true :=
  ((c4_offer_acceptance stEmpty 3 "f1" offerFromBob).1).mpr
    ⟨by decide, by decide, by decide, by decide, by decide⟩

/-- C5 (code bug): with a pending connection sitting first in the pool
and a Connected peer after it, `broadcastMessage` sends to nobody — not
even the Connected peer — and emits no `broadcast-message` event,
because the loop body runs `return` (not `continue`) at the pending
connection; only the seen-memory record happens. -/
theorem c5_broadcast_abort :
    (Network.broadcastMessage stPendingFirst 100 mFix).2 = [] ∧
      cLive ∈ stPendingFirst.connections ∧
      cLive.peerConnected = true ∧
      truthyStr cPending.negotiation.sdp = false ∧
      assocLookup (Network.broadcastMessage stPendingFirst 100 mFix).1.seenMessageIds
        mFix.id = some 100 :=
  ⟨rfl, by decide, rfl, rfl, rfl⟩

/-- C6 (code bug): the constructor's `Object.assign(config, defaults)`
lets the defaults overwrite every caller-supplied field: passing
`maxConnections: 2` yields a config whose `maxConnections` is 10, and in
general the merged config is identically the defaults record. -/
theorem c6_config_overwritten :
    (constructorConfig { maxConnections := some 2 }).maxConnections = some 10 ∧
      ∀ cfg : ConfigInput, constructorConfig cfg = configDefaults :=
  ⟨rfl, fun _ => rfl⟩

/-- C7 (code bug): calling `broadcast` with the required `type` field
missing is not fatal to the call — no contract violation is reported;
the malformed message (type `undefined`) is silently stamped, recorded in
seen memory and announced in `broadcast-message`. -/
theorem c7_no_validation :
    (Network.broadcast stEmpty 50 "fresh2" inputNoType).2 =
        [NetEvent.broadcastMessage
          { id := "fresh2", clientId := "self", appId := some "my-app",
            type := none, ttl := 6, destination := "*", data := .str "hello" }] ∧
      inputNoType.type = none ∧
      assocLookup (Network.broadcast stEmpty 50 "fresh2" inputNoType).1.seenMessageIds
        "fresh2" = some 50 :=
  ⟨rfl, rfl, rfl⟩

/-- C8 (code bug): two messages registered at 10 ms and 20 ms are each
far older than 1000 ms at query time 5000 ms, yet `isRude` still returns
true — the query filters with `t < now`, keeping every past timestamp
instead of evicting those older than 1000 ms, so a sender that was ever
over the rate stays rude forever. -/
theorem c8_rude_never_expires :
    RudeList.isRude rlTwo 5000 "addr" = true ∧
      rlTwo.events = [("addr", [10, 20])] ∧
      5000 - (10 : Nat) > 1000 ∧ 5000 - (20 : Nat) > 1000 :=
  ⟨rfl, rfl, by decide, by decide⟩

/-! ### Preservation of the connection-count invariant -/

lemma connInv_of_eq {st st' : NetworkState} (h : ConnInv st)
    (hc : st'.connections = st.connections) (hcfg : st'.config = st.config) :
    ConnInv st' := by
  unfold ConnInv at h ⊢
  rw [hc, hcfg]
  exact h

/-- Any operation that only filters the connection pool preserves the
invariant. -/
lemma connInv_filter (st : NetworkState) (p : Connection → Bool)
    (h : ConnInv st) :
    ConnInv { st with connections := st.connections.filter p } := by
  rcases h with hlen | ⟨hlen, c, hm, hopen⟩
  · left
    exact le_trans (List.length_filter_le _ _) hlen
  · by_cases heq : st.connections.filter p = st.connections
    · right
      exact ⟨by simpa [heq] using hlen, c, by simpa [heq] using hm, hopen⟩
    · left
      have hle : (st.connections.filter p).length ≤ st.connections.length :=
        List.length_filter_le _ _
      have hne : (st.connections.filter p).length ≠ st.connections.length :=
        fun hc2 => heq ((st.connections.filter_sublist).eq_of_length hc2)
      show (st.connections.filter p).length ≤ st.config.maxConnections
      omega

lemma destroyConnection_connInv (st : NetworkState) (c : Connection)
    (h : ConnInv st) : ConnInv (Network.destroyConnection st c).1 :=
  connInv_filter st _ h

lemma handleOffer_connInv (st : NetworkState) (now : Nat) (freshId : String)
    (offer : Negotiation) (h : ConnInv st) :
    ConnInv (Network.handleOffer st now freshId offer).1 := by
  unfold Network.handleOffer
  split
  · exact h
  · next hg =>
    simp only [Bool.or_eq_true, not_or, decide_eq_true_eq] at hg
    have hlt : st.connections.length < st.config.maxConnections := by
      have := hg.2
      omega
    left
    show (st.connections ++ [_]).length ≤ st.config.maxConnections
    rw [List.length_append, List.length_singleton]
    omega

lemma handleAnswer_connInv (st : NetworkState) (answer : Negotiation)
    (h : ConnInv st) : ConnInv (Network.handleAnswer st answer).1 := by
  unfold Network.handleAnswer
  split
  · exact h
  · split
    · exact h
    · next hg =>
      simp only [Bool.or_eq_true, not_or, decide_eq_true_eq] at hg
      have hlt : st.connections.length < st.config.maxConnections := by
        have := hg.2
        omega
      left
      show (st.connections.map _).length ≤ st.config.maxConnections
      rw [List.length_map]
      omega

lemma getOrGenerate_connInv (st : NetworkState) (now : Nat) (freshId : String)
    (h : ConnInv st) :
    ConnInv (Network.getOrGenerateOpenConnection st now freshId).1 := by
  unfold Network.getOrGenerateOpenConnection
  split
  · exact h
  · next hfind =>
    have hno : ∀ c ∈ st.connections, ¬((c.clientId.getD "") == "") = true :=
      List.find?_eq_none.mp hfind
    rcases h with hlen | ⟨hlen, c, hm, hopen⟩
    · by_cases hlt : st.connections.length < st.config.maxConnections
      · left
        show (st.connections ++ [_]).length ≤ st.config.maxConnections
        rw [List.length_append, List.length_singleton]
        omega
      · have hmax : st.connections.length = st.config.maxConnections := by omega
        right
        constructor
        · show (st.connections ++ [_]).length = st.config.maxConnections + 1
          rw [List.length_append, List.length_singleton, hmax]
        · refine ⟨Network.generateOfferConnection st now freshId, ?_, rfl⟩
          show _ ∈ st.connections ++ [Network.generateOfferConnection st now freshId]
          exact List.mem_append_right _ (List.mem_singleton_self _)
    · exact absurd hopen (by simpa [openConn] using hno c hm)

lemma broadcastMessage_connInv (st : NetworkState) (now : Nat) (m : Message)
    (h : ConnInv st) : ConnInv (Network.broadcastMessage st now m).1 :=
  connInv_of_eq h rfl rfl

lemma rebroadcast_connInv (st : NetworkState) (now : Nat) (m : Message)
    (h : ConnInv st) : ConnInv (Network.rebroadcast st now m).1 :=
  connInv_of_eq h (Network.rebroadcast_connections st now m)
    (Network.rebroadcast_config st now m)

lemma broadcast_connInv (st : NetworkState) (now : Nat) (freshId : String)
    (input : Network.BroadcastInput) (h : ConnInv st) :
    ConnInv (Network.broadcast st now freshId input).1 :=
  connInv_of_eq h rfl rfl

lemma dispatch_connInv (st : NetworkState) (now : Nat) (freshId : String)
    (m : Message) (h : ConnInv st) :
    ConnInv (Network.dispatchNetworkMessage st now freshId m).1 := by
  unfold Network.dispatchNetworkMessage
  split
  · unfold Network.handleOfferMessage
    split
    · exact handleOffer_connInv _ _ _ _ h
    · exact h
  · unfold Network.handleAnswerMessage
    split
    · exact handleAnswer_connInv _ _ h
    · exact h
  · unfold Network.handleLogMessage
    split
    · exact h
    · exact h
  · exact h
  · exact h

lemma handleMessage_connInv (st : NetworkState) (now : Nat) (freshId : String)
    (m : Message) (h : ConnInv st) :
    ConnInv (Network.handleMessage st now freshId m).1 := by
  unfold Network.handleMessage
  split
  · exact h
  · have h1 : ConnInv { st with
        seenMessageIds := upsert st.seenMessageIds m.id now } :=
      connInv_of_eq h rfl rfl
    split
    · dsimp only
      split
      · exact dispatch_connInv _ _ _ _ h1
      · exact rebroadcast_connInv _ _ _ (dispatch_connInv _ _ _ _ h1)
    · exact rebroadcast_connInv _ _ _ h1

lemma processBook_connInv (now : Nat) (book : List Negotiation) :
    ∀ (st : NetworkState) (freshIds : List String), ConnInv st →
      ConnInv (Network.processBook now st freshIds book).1 := by
  induction book with
  | nil => intro st freshIds h; exact h
  | cons n rest ih =>
    intro st freshIds h
    unfold Network.processBook
    split
    · exact ih _ _ (handleOffer_connInv _ _ _ _ h)
    · exact ih _ _ (handleAnswer_connInv _ _ h)

lemma doSwitchboardRequest_connInv (st : NetworkState) (now : Nat)
    (freshConnId : String) (freshIds : List String)
    (book : Option (List Negotiation)) (h : ConnInv st) :
    ConnInv (Network.doSwitchboardRequest st now freshConnId freshIds book).1 := by
  have h1 := getOrGenerate_connInv st now freshConnId h
  unfold Network.doSwitchboardRequest
  cases book with
  | none =>
    dsimp only
    split
    · exact h1
    · exact h1
  | some b =>
    dsimp only
    split
    · exact h1
    · exact processBook_connInv now b _ _ h1

lemma broadcastOffer_connInv (st : NetworkState) (now : Nat)
    (freshConnId freshMsgId : String) (h : ConnInv st) :
    ConnInv (Network.broadcastOffer st now freshConnId freshMsgId).1 :=
  broadcastMessage_connInv _ now _ (getOrGenerate_connInv st now freshConnId h)

lemma addToRudeList_connInv (st : NetworkState) (now : Nat) (freshMsgId : String)
    (ip : String) (clientId : Option String) (h : ConnInv st) :
    ConnInv (Network.addToRudeList st now freshMsgId ip clientId).1 := by
  unfold Network.addToRudeList
  have h1 : ConnInv { st with rudeIps := upsert st.rudeIps ip now } :=
    connInv_of_eq h rfl rfl
  split
  · dsimp only
    split
    · exact h1
    · exact destroyConnection_connInv _ _ (broadcast_connInv _ _ _ _ h1)
  · exact h1

lemma garbageCollect_connInv (st : NetworkState) (now : Nat) (h : ConnInv st) :
    ConnInv (Network.garbageCollect st now).1 := by
  unfold Network.garbageCollect Network.garbageCollectConnections
  have h1 : ConnInv (Network.garbageCollectSeenMessages st now) :=
    connInv_of_eq h rfl rfl
  dsimp only
  split
  · exact destroyConnection_connInv _ _ h1
  · exact h1

lemma stepOp_connInv (st : NetworkState) (op : NetOp) (h : ConnInv st) :
    ConnInv (stepOp st op).1 := by
  cases op with
  | opHandleMessage now freshId m => exact handleMessage_connInv st now freshId m h
  | opBroadcast now freshId input => exact broadcast_connInv st now freshId input h
  | opBroadcastOffer now freshConnId freshMsgId =>
    exact broadcastOffer_connInv st now freshConnId freshMsgId h
  | opSwitchboardRequest now freshConnId freshIds book =>
    exact doSwitchboardRequest_connInv st now freshConnId freshIds book h
  | opAddToRudeList now freshMsgId ip clientId =>
    exact addToRudeList_connInv st now freshMsgId ip clientId h
  | opPeerClose connectionId =>
    simp only [stepOp]
    split
    · exact destroyConnection_connInv _ _ h
    · exact h
  | opGarbageCollect now => exact garbageCollect_connInv st now h

lemma runOps_connInv (ops : List NetOp) :
    ∀ st : NetworkState, ConnInv st → ConnInv (runOps st ops) := by
  induction ops with
  | nil => intro st h; exact h
  | cons op rest ih => intro st h; exact ih _ (stepOp_connInv st op h)

/-- C3 counterexample: from a fresh node with maxConnections 10, a run of
completed operations — offer-broadcast ticks, in-band answers to the open
connections, one accepted in-band offer — ends in a quiescent state with
eleven connections: the cap is exceeded (by the open connection the
offer-broadcast tick creates without any check). -/
theorem c3_counterexample :
    (runOps stEmpty c3ops).connections.length = 11 ∧
      (runOps stEmpty c3ops).config.maxConnections = 10 :=
  ⟨by decide, by decide⟩

/-- C3 (corrected): the bound the code maintains is
`maxConnections + 1`, not `maxConnections`.  The offer-handling and
answer-handling paths enforce the cap, but the open-connection
generation on the periodic offer broadcast and the switchboard request
path adds one connection without checking it; that connection is the
only possible excess.  From any state satisfying `ConnInv` (a fresh node
in particular), every sequence of completed operations ends with at most
`maxConnections + 1` connections. -/
theorem c3_connection_bound (st : NetworkState) (ops : List NetOp)
    (h : ConnInv st) :
    (runOps st ops).connections.length ≤
      (runOps st ops).config.maxConnections + 1 := by
  rcases runOps_connInv ops st h with hlen | ⟨hlen, _⟩
  · omega
  · omega

/-- Witness for C3: a fresh node after the counterexample run stays
within the corrected bound. -/
theorem c3_connection_bound_witness :
    ConnInv stEmpty ∧
      (runOps stEmpty c3ops).connections.length ≤
        (runOps stEmpty c3ops).config.maxConnections + 1 :=
  ⟨Or.inl (by decide), c3_connection_bound stEmpty c3ops (Or.inl (by decide))⟩

end BrowserNetwork
